import Mathlib

/-!
Shallow embedding of the AAED Source Data Cleaner (src/app.py), a
Streamlit annotation loop over a pandas dataframe of dictionary rows.

Rows of the dataframe become `Record`s; the three session-state slots
`main_df`, `file_name` and `working_df` become the fields of `Session`.
Each Streamlit rerun re-executes the script top to bottom, which we model
as the `rerun` function (column check aside, handled by `uploadStep`),
followed by at most one button action (`uniformAction`,
`allDifferentAction`, `saveClassificationAction`, `skipAction`).
-/

set_option autoImplicit false

namespace AAED

/-- One row of the dataframe: the five required columns plus the
`homophone` label column (`none` models NaN / unclassified). -/
structure Record where
  index : Nat
  sub_index : Nat
  entry : String
  gloss : String
  word : String
  homophone : Option Nat
  deriving Repr, DecidableEq

/-- The Streamlit session state: `main_df` (the authoritative store),
`file_name` (the remembered upload name) and `working_df` (the pending
queue of unclassified rows).  `none` models the key being absent from
`st.session_state`. -/
structure Session where
  main_df : Option (List Record)
  file_name : Option String
  working_df : Option (List Record)
  deriving Repr, DecidableEq

/-- A fresh session: no keys present in `st.session_state`. -/
def Session.init : Session := ⟨none, none, none⟩

/-- Number of rows of `l` whose `word` equals `w`
(`df['word'].value_counts()` looked up at `w`). -/
def countWord (l : List Record) (w : String) : Nat :=
  (l.filter (fun r => r.word = w)).length

/-- Lines 64-67 of app.py: `word_counts = df['word'].value_counts();
single_words = word_counts[word_counts == 1].index;
df.loc[df['word'].isin(single_words), 'homophone'] = 1`.
The assignment is unconditional on the previous `homophone` value. -/
def applySingletonResolution (l : List Record) : List Record :=
  l.map (fun r => if countWord l r.word = 1 then { r with homophone := some 1 } else r)

/-- Line 70 of app.py: `unclassified_df = df[df['homophone'].isna()].copy()`. -/
def unclassifiedRows (l : List Record) : List Record :=
  l.filter (fun r => r.homophone = none)

/-- Lines 41-62 of app.py.  First load stores `main_df` but never sets
`file_name`; afterwards the store is replaced whenever `file_name` is
absent or differs from the uploaded name, and only then is the name
remembered.  `working_df` is untouched here. -/
def loadStep (s : Session) (fileName : String) (rows : List Record) : Session :=
  match s.main_df with
  | none => { s with main_df := some rows }
  | some _ =>
      if s.file_name = some fileName then s
      else { s with main_df := some rows, file_name := some fileName }

/-- Lines 64-74 of app.py: singleton resolution mutates `main_df` in
place, then `working_df` is initialised from the unclassified rows only
when the key is absent from the session state. -/
def resolveStep (s : Session) : Session :=
  let df := applySingletonResolution (s.main_df.getD [])
  { s with
    main_df := some df
    working_df := some (s.working_df.getD (unclassifiedRows df)) }

/-- One full script run for an upload that has all required columns:
the load logic followed by singleton resolution and `working_df`
initialisation. -/
def rerun (s : Session) (fileName : String) (rows : List Record) : Session :=
  resolveStep (loadStep s fileName rows)

/-- Lines 119-125 / 145-149 / 197-201 of app.py: the masked update
`main_df.loc[(main_df['index'] == i) & (main_df['sub_index'] == si),
'homophone'] = label`.  Every matching row is updated; a key matching no
row updates nothing and raises no error. -/
def setLabelMasked (df : List Record) (i si label : Nat) : List Record :=
  df.map (fun r =>
    if r.index = i ∧ r.sub_index = si then { r with homophone := some label } else r)

/-- A batch of pending `(index, sub_index, label)` updates applied in
order, one masked assignment per loop iteration of app.py. -/
def applyBatch (df : List Record) (updates : List (Nat × Nat × Nat)) : List Record :=
  updates.foldl (fun acc u => setLabelMasked acc u.1 u.2.1 u.2.2) df

/-- Line 82 of app.py: all pending rows sharing the word `w`. -/
def wordEntries (wdf : List Record) (w : String) : List Record :=
  wdf.filter (fun r => r.word = w)

/-- Lines 128 / 152 / 204 / 223 of app.py: drop the current word from
the pending queue. -/
def removeWord (wdf : List Record) (w : String) : List Record :=
  wdf.filter (fun r => ¬ r.word = w)

/-- Lines 115-129 of app.py, the "Just one word" button: every member of
the current group is written label 1 in `main_df`, then the word is
removed from `working_df`. -/
def uniformAction (s : Session) : Session :=
  match s.working_df with
  | none => s
  | some wdf =>
      match wdf.head? with
      | none => s
      | some r0 =>
          let g := wordEntries wdf r0.word
          { s with
            main_df := some (applyBatch (s.main_df.getD [])
              (g.map (fun r => (r.index, r.sub_index, 1))))
            working_df := some (removeWord wdf r0.word) }

/-- Lines 139-153 of app.py, the "All different words" button:
`enumerate(word_entries.iterrows(), start=1)` writes label `i+1` to the
`i`-th member (0-based). -/
def allDifferentUpdates (g : List Record) : List (Nat × Nat × Nat) :=
  g.enum.map (fun p => (p.2.index, p.2.sub_index, p.1 + 1))

/-- The "All different words" button at the session level. -/
def allDifferentAction (s : Session) : Session :=
  match s.working_df with
  | none => s
  | some wdf =>
      match wdf.head? with
      | none => s
      | some r0 =>
          { s with
            main_df := some (applyBatch (s.main_df.getD [])
              (allDifferentUpdates (wordEntries wdf r0.word)))
            working_df := some (removeWord wdf r0.word) }

/-- Line 162 of app.py: `homophone_groups = min(5, len(word_entries))`. -/
def homophone_groups (g : List Record) : Nat := min 5 g.length

/-- Line 178 of app.py: the radio options `list(range(1, homophone_groups + 1))`. -/
def radioOptions (g : List Record) : List Nat :=
  (List.range (homophone_groups g)).map (fun k => k + 1)

/-- Lines 170-201 of app.py: each member `i` of the group carries a radio
widget whose value defaults to group 1 (`index=0`); `choice i = none`
models a member the reviewer never touched, `choice i = some v` an
explicit selection `v` (always one of the radio options).  Saving builds
one `(index, sub_index, group)` update per member. -/
def manualUpdates (g : List Record) (choice : Nat → Option Nat) : List (Nat × Nat × Nat) :=
  g.enum.map (fun p => (p.2.index, p.2.sub_index, (choice p.1).getD 1))

/-- The "Save Classification & Continue" button at the session level. -/
def saveClassificationAction (s : Session) (choice : Nat → Option Nat) : Session :=
  match s.working_df with
  | none => s
  | some wdf =>
      match wdf.head? with
      | none => s
      | some r0 =>
          { s with
            main_df := some (applyBatch (s.main_df.getD [])
              (manualUpdates (wordEntries wdf r0.word) choice))
            working_df := some (removeWord wdf r0.word) }

/-- Lines 219-225 of app.py, the "Skip this word" button: the current
word's rows are split off and re-appended behind the remaining pending
rows; `main_df` is untouched. -/
def skipAction (s : Session) : Session :=
  match s.working_df with
  | none => s
  | some wdf =>
      match wdf.head? with
      | none => s
      | some r0 =>
          { s with
            working_df := some (removeWord wdf r0.word ++ wordEntries wdf r0.word) }

/-- Auxiliary: the distinct `word` values of the pending queue in order
of first appearance (the order in which the app presents groups, since
the current group is always the word of the first pending row and its
rows are removed or re-queued together). -/
def distinctWordsFrom : List Record → List String → List String
  | [], _ => []
  | r :: rs, seen =>
      if r.word ∈ seen then distinctWordsFrom rs seen
      else r.word :: distinctWordsFrom rs (r.word :: seen)

/-- The distinct pending words in first-appearance order. -/
def distinctWords (wdf : List Record) : List String :=
  distinctWordsFrom wdf []

/-- The sequence of groups the app will present for the pending queue
`wdf`: one group per distinct pending word, in first-appearance order,
each holding the pending rows of that word. -/
def unresolvedGroups (wdf : List Record) : List (String × List Record) :=
  (distinctWords wdf).map (fun w => (w, wordEntries wdf w))

/-- Line 35 of app.py. -/
def required_columns : List String := ["index", "sub_index", "entry", "gloss", "word"]

/-- Line 36 of app.py:
`[col for col in required_columns if col not in df.columns]`. -/
def missing_columns (cols : List String) : List String :=
  required_columns.filter (fun c => ¬ c ∈ cols)

/-- Line 39 of app.py: the error text shown when columns are missing. -/
def errorMessage (missing : List String) : String :=
  "Missing required columns: " ++ String.intercalate ", " missing

/-- Lines 34-74 of app.py: the column check guards the whole load; when
columns are missing only the error is emitted and the session state is
left untouched, otherwise the run proceeds as `rerun`. -/
def uploadStep (s : Session) (cols : List String) (fileName : String) (rows : List Record) :
    Session × Option String :=
  if missing_columns cols = [] then (rerun s fileName rows, none)
  else (s, some (errorMessage (missing_columns cols)))

/-- Line 248 of app.py: `df['homophone'].notna().sum()`. -/
def classified_words (df : List Record) : Nat :=
  (df.filter (fun r => ¬ r.homophone = none)).length

/-- numpy true division of the pandas sum (a numpy int64 scalar) by a
Python int: division by zero produces a non-finite float (NaN for 0/0)
together with a RuntimeWarning, it does not raise an exception.  `none`
models the non-finite result. -/
def npDiv (a b : Nat) : Option ℚ :=
  if b = 0 then none else some ((a : ℚ) / (b : ℚ))

/-- What lines 77-249 of app.py render for a loaded session: whether the
all-classified success branch is taken (line 227-229), that the export
button is always offered (lines 231-244), the stats percentage of line
249 (`none` = NaN displayed), and whether the `except` handler fired
(`none` = no error).  No statement in this stretch raises for an empty
dataframe, so the error slot is always empty here. -/
structure RenderOutcome where
  allResolvedShown : Bool
  exportOffered : Bool
  statsPct : Option ℚ
  errorShown : Option String
  deriving Repr, DecidableEq

/-- The rendering of a loaded session (lines 77-249 of app.py). -/
def renderAfterLoad (s : Session) : RenderOutcome :=
  let df := s.main_df.getD []
  let wdf := s.working_df.getD []
  { allResolvedShown := decide (wdf.length = 0)
    exportOffered := true
    statsPct := npDiv (classified_words df) df.length
    errorShown := none }

/-! ### Helper lemmas -/

/-- Mapping a word-preserving function over the store leaves every word
count unchanged. -/
theorem countWord_map (f : Record → Record) (hf : ∀ r, (f r).word = r.word)
    (l : List Record) (w : String) : countWord (l.map f) w = countWord l w := by
  simp only [countWord, ← List.countP_eq_length_filter, List.countP_map]
  apply List.countP_congr
  intro a _
  simp [Function.comp, hf]

/-- The per-record assignment of singleton resolution preserves the word. -/
theorem singletonStep_word (l : List Record) (r : Record) :
    ((fun r => if countWord l r.word = 1 then { r with homophone := some 1 } else r) r).word
      = r.word := by
  by_cases h : countWord l r.word = 1 <;> simp [h]

/-- A masked update whose key matches no row of the store leaves the
store unchanged (the boolean mask selects nothing). -/
theorem setLabelMasked_of_no_match (df : List Record) (i si label : Nat)
    (h : ∀ r ∈ df, ¬(r.index = i ∧ r.sub_index = si)) :
    setLabelMasked df i si label = df := by
  induction df with
  | nil => rfl
  | cons a t ih =>
      have ha : ¬(a.index = i ∧ a.sub_index = si) := h a (List.mem_cons_self a t)
      simp only [setLabelMasked, List.map_cons, if_neg ha, List.cons.injEq, true_and]
      exact ih (fun r hr => h r (List.mem_cons_of_mem a hr))

/-- Splitting a list by a predicate and concatenating the two parts is a
permutation of the list. -/
theorem filter_not_append_filter_perm (p : Record → Prop) [DecidablePred p]
    (l : List Record) :
    (l.filter (fun r => ¬ p r) ++ l.filter (fun r => p r)).Perm l := by
  have h := List.filter_append_perm (fun r => !decide (p r)) l
  simpa [decide_not, Bool.not_not] using h

/-- Every element of `radioOptions g` lies between 1 and `min 5 N`. -/
theorem mem_radioOptions (g : List Record) (v : Nat) (hv : v ∈ radioOptions g) :
    1 ≤ v ∧ v ≤ min 5 g.length := by
  simp only [radioOptions, homophone_groups, List.mem_map, List.mem_range] at hv
  obtain ⟨k, hk, rfl⟩ := hv
  omega

/-! ### C2: singleton resolution -/

/-- C2 (counterexample): singleton resolution does not leave already-set
labels unchanged — a record whose word occurs once but already carries
label 2 is overwritten with label 1. -/
theorem singleton_overwrites_preset_label :
    applySingletonResolution [⟨1, 1, "e", "g", "x", some 2⟩]
      = [⟨1, 1, "e", "g", "x", some 1⟩] := rfl

/-- C2 (amended): after singleton resolution, every record whose word
occurs exactly once across the set carries label 1; the label is written
unconditionally, so a pre-set label on such a record is overwritten
rather than preserved. -/
theorem unique_word_labelled_one (l : List Record) (r : Record)
    (hr : r ∈ applySingletonResolution l) (hu : countWord l r.word = 1) :
    r.homophone = some 1 := by
  simp only [applySingletonResolution, List.mem_map] at hr
  obtain ⟨a, _, rfl⟩ := hr
  by_cases h : countWord l a.word = 1
  · simp [h]
  · simp only [if_neg h] at hu ⊢
    exact absurd hu h

/-- Witness for C2: the singleton record of the one-row store ends up
labelled 1. -/
theorem unique_word_labelled_one_witness :
    (⟨1, 1, "e", "g", "x", some 1⟩ : Record).homophone = some 1 :=
  unique_word_labelled_one [⟨1, 1, "e", "g", "x", some 2⟩] ⟨1, 1, "e", "g", "x", some 1⟩
    (by decide) (by decide)

/-! ### C4: missing keys in a batch of label updates -/

/-- C4 (counterexample): a batch holding the absent key (9,9) is not
rejected: the masked update for (9,9) silently matches nothing and the
remaining update (1,1) is still applied, so the store changes. -/
theorem missing_key_ignored_rest_applied :
    (([⟨1, 1, "e", "g", "x", none⟩] : List Record).filter
        (fun r => r.index = 9 ∧ r.sub_index = 9)) = []
    ∧ applyBatch [⟨1, 1, "e", "g", "x", none⟩] [(9, 9, 2), (1, 1, 3)]
      = [⟨1, 1, "e", "g", "x", some 3⟩] := by
  constructor <;> rfl

/-- C4 (amended): an update whose key matches no record is silently
ignored — the batch behaves exactly as if the update were absent, the
remaining updates are applied, and no failure is signalled. -/
theorem missing_key_is_noop (df : List Record) (i si label : Nat)
    (rest : List (Nat × Nat × Nat))
    (h : ∀ r ∈ df, ¬(r.index = i ∧ r.sub_index = si)) :
    applyBatch df ((i, si, label) :: rest) = applyBatch df rest := by
  show applyBatch (setLabelMasked df i si label) rest = applyBatch df rest
  rw [setLabelMasked_of_no_match df i si label h]

/-- Witness for C4: the absent key (9,9) in front of a batch changes
nothing about the batch effect. -/
theorem missing_key_is_noop_witness :
    applyBatch [⟨1, 1, "e", "g", "x", none⟩] [(9, 9, 2), (1, 1, 3)]
      = applyBatch [⟨1, 1, "e", "g", "x", none⟩] [(1, 1, 3)] :=
  missing_key_is_noop [⟨1, 1, "e", "g", "x", none⟩] 9 9 2 [(1, 1, 3)] (by decide)

/-! ### C9: idempotence of singleton resolution -/

/-- C9: running singleton resolution twice yields the same store as
running it once. -/
theorem singleton_resolution_idempotent (l : List Record) :
    applySingletonResolution (applySingletonResolution l)
      = applySingletonResolution l := by
  unfold applySingletonResolution
  rw [List.map_map]
  apply List.map_congr_left
  intro a _
  have hw : ∀ w, countWord (l.map (fun r =>
      if countWord l r.word = 1 then { r with homophone := some 1 } else r)) w
      = countWord l w :=
    fun w => countWord_map _ (singletonStep_word l) l w
  by_cases h : countWord l a.word = 1
  · simp only [Function.comp_apply, if_pos h, hw, h, if_pos]
  · simp only [Function.comp_apply, if_neg h, hw, if_neg h]

/-! ### C10: empty dataset -/

/-- C10 (counterexample): loading a schema-correct dataset with zero rows
reaches the all-classified success branch with the export button offered;
the stats division 0/0 yields NaN under numpy semantics and no error is
reported through the except handler. -/
theorem empty_dataset_reaches_export_state :
    renderAfterLoad (rerun Session.init "empty.xlsx" [])
      = ⟨true, true, none, none⟩ := rfl

/-- C10 (amended): for every upload name, a dataset with the required
columns and zero rows renders the all-resolved state, offers the export,
shows a NaN stats percentage and raises no error. -/
theorem empty_dataset_stats_nan (fileName : String) :
    renderAfterLoad (rerun Session.init fileName [])
      = ⟨true, true, none, none⟩ := rfl

/-! ### C1: load and file identity -/

/-- Two rows sharing the word "b", as first uploaded (no labels). -/
def c1rows : List Record :=
  [⟨1, 1, "e1", "g1", "b", none⟩, ⟨2, 1, "e2", "g2", "b", none⟩]

/-- A one-row dataset for a distinct upload. -/
def c1rowsB : List Record := [⟨3, 1, "e3", "g3", "c", none⟩]

/-- C1 (code bug evaluation): the first load never records the file name,
so the very next run with the same upload takes the replace branch and
discards the labels just assigned; and loading a differently-named file
replaces the store but leaves the old pending queue in place.  Read as:
after classifying the "b" group both rows carry label 1; after the
following rerun of the same file both labels are gone; after loading file
B over file A the pending queue still holds the rows of file A. -/
theorem same_file_reload_discards_progress :
    ((uniformAction (rerun Session.init "A.xlsx" c1rows)).main_df.getD []).map
        (fun r => r.homophone) = [some 1, some 1]
    ∧ ((rerun (uniformAction (rerun Session.init "A.xlsx" c1rows))
          "A.xlsx" c1rows).main_df.getD []).map (fun r => r.homophone) = [none, none]
    ∧ (rerun (rerun Session.init "A.xlsx" c1rows) "B.xlsx" c1rowsB).working_df
        = some c1rows :=
  ⟨rfl, rfl, rfl⟩

/-! ### C7: the sequence of unresolved groups -/

/-- File A: the word "b" twice, unresolved after load. -/
def c7rowsA : List Record :=
  [⟨1, 1, "e1", "g1", "b", none⟩, ⟨2, 1, "e2", "g2", "b", none⟩]

/-- File B: a single row whose word "c" is auto-resolved as a singleton. -/
def c7rowsB : List Record := [⟨3, 1, "e3", "g3", "c", none⟩]

/-- Loading file A and then file B: the store now holds only file B. -/
def c7s : Session := rerun (rerun Session.init "A.xlsx" c7rowsA) "B.xlsx" c7rowsB

/-- C7 (code bug evaluation): after file B replaces file A in the store,
the pending queue is stale: the group sequence still yields a group for
the word "b" although the store holds no record of that word at all —
indeed every record of the store is already classified. -/
theorem pending_group_for_absent_word :
    (unresolvedGroups (c7s.working_df.getD [])).map Prod.fst = ["b"]
    ∧ countWord (c7s.main_df.getD []) "b" = 0
    ∧ unclassifiedRows (c7s.main_df.getD []) = [] :=
  ⟨rfl, rfl, rfl⟩

/-! ### C5: all-distinct resolution -/

/-- C5: the all-distinct handler produces exactly one update per group
member, keyed in the group's member order, and the labels are exactly
1..N, pairwise distinct. -/
theorem all_distinct_labels (g : List Record) :
    (allDifferentUpdates g).map (fun u => (u.1, u.2.1))
        = g.map (fun r => (r.index, r.sub_index))
    ∧ (allDifferentUpdates g).map (fun u => u.2.2) = List.range' 1 g.length
    ∧ ((allDifferentUpdates g).map (fun u => u.2.2)).Nodup := by
  have hlab : (allDifferentUpdates g).map (fun u => u.2.2)
      = (List.range g.length).map (fun k => k + 1) := by
    unfold allDifferentUpdates
    rw [List.map_map]
    have heq : ((fun u : Nat × Nat × Nat => u.2.2)
        ∘ (fun p : Nat × Record => (p.2.index, p.2.sub_index, p.1 + 1)))
        = ((fun k => k + 1) ∘ Prod.fst) := rfl
    rw [heq, ← List.map_map, List.enum_map_fst]
  refine ⟨?_, ?_, ?_⟩
  · unfold allDifferentUpdates
    rw [List.map_map]
    have heq : ((fun u : Nat × Nat × Nat => (u.1, u.2.1))
        ∘ (fun p : Nat × Record => (p.2.index, p.2.sub_index, p.1 + 1)))
        = ((fun r : Record => (r.index, r.sub_index)) ∘ Prod.snd) := rfl
    rw [heq, ← List.map_map, List.enum_map_snd]
  · rw [hlab, List.range'_eq_map_range]
    exact List.map_congr_left (fun a _ => by omega)
  · rw [hlab]
    exact (List.nodup_range g.length).map (fun a b h => by omega)

/-! ### C3: manual grouping -/

/-- C3: manual grouping applies exactly one update per member in member
order; the label is the submitted group for an explicitly chosen member
and the default 1 otherwise, and every applied label lies in
1..min(5, N). -/
theorem manual_labels_exact (g : List Record) (choice : Nat → Option Nat)
    (hne : ¬ g = [])
    (hc : ∀ i v, choice i = some v → v ∈ radioOptions g) :
    (manualUpdates g choice).map (fun u => (u.1, u.2.1))
        = g.map (fun r => (r.index, r.sub_index))
    ∧ (manualUpdates g choice).map (fun u => u.2.2)
        = (List.range g.length).map (fun i => (choice i).getD 1)
    ∧ ∀ u ∈ manualUpdates g choice, 1 ≤ u.2.2 ∧ u.2.2 ≤ min 5 g.length := by
  refine ⟨?_, ?_, ?_⟩
  · unfold manualUpdates
    rw [List.map_map]
    have heq : ((fun u : Nat × Nat × Nat => (u.1, u.2.1))
        ∘ (fun p : Nat × Record => (p.2.index, p.2.sub_index, (choice p.1).getD 1)))
        = ((fun r : Record => (r.index, r.sub_index)) ∘ Prod.snd) := rfl
    rw [heq, ← List.map_map, List.enum_map_snd]
  · unfold manualUpdates
    rw [List.map_map]
    have heq : ((fun u : Nat × Nat × Nat => u.2.2)
        ∘ (fun p : Nat × Record => (p.2.index, p.2.sub_index, (choice p.1).getD 1)))
        = ((fun i => (choice i).getD 1) ∘ Prod.fst) := rfl
    rw [heq, ← List.map_map, List.enum_map_fst]
  · intro u hu
    simp only [manualUpdates, List.mem_map] at hu
    obtain ⟨p, _, rfl⟩ := hu
    cases hch : choice p.1 with
    | none =>
        have hlen : 0 < g.length := List.length_pos.mpr hne
        simp only [hch, Option.getD_none]
        exact ⟨le_refl 1, Nat.le_min.mpr ⟨by norm_num, hlen⟩⟩
    | some v =>
        simp only [hch, Option.getD_some]
        exact mem_radioOptions g v (hc p.1 v hch)

/-- The group used by the C3 witness: three rows of the word "b". -/
def c3g : List Record :=
  [⟨1, 1, "e1", "g1", "b", none⟩, ⟨2, 1, "e2", "g2", "b", none⟩,
   ⟨3, 1, "e3", "g3", "b", none⟩]

/-- The C3 witness choice: the reviewer explicitly selects group 2 for the
first member and leaves the radio of the others on the default. -/
def c3choice : Nat → Option Nat := fun i => if i = 0 then some 2 else none

/-- Witness for C3 at a three-member group with one explicit selection. -/
theorem manual_labels_exact_witness :
    (manualUpdates c3g c3choice).map (fun u => u.2.2)
      = (List.range c3g.length).map (fun i => (c3choice i).getD 1) :=
  (manual_labels_exact c3g c3choice (by decide) (fun i v h => by
    cases i with
    | zero =>
        have hv : v = 2 := by simpa [c3choice] using h.symm
        subst hv
        decide
    | succ j => simp [c3choice] at h)).2.1

/-! ### C6: skip -/

/-- C6: skipping mutates no record: the store and file name are unchanged,
the new pending queue is the old one with the current word's rows moved
behind every other pending row (a permutation of the old queue, split as
non-group rows followed by group rows), and when every pending row belongs
to the current group the session is left exactly as it was. -/
theorem skip_moves_group_to_end (s : Session) (wdf : List Record) (r0 : Record)
    (hw : s.working_df = some wdf) (hh : wdf.head? = some r0) :
    (skipAction s).main_df = s.main_df
    ∧ (skipAction s).file_name = s.file_name
    ∧ (skipAction s).working_df
        = some (removeWord wdf r0.word ++ wordEntries wdf r0.word)
    ∧ (removeWord wdf r0.word ++ wordEntries wdf r0.word).Perm wdf
    ∧ (∀ a ∈ removeWord wdf r0.word, ¬ a.word = r0.word)
    ∧ (∀ a ∈ wordEntries wdf r0.word, a.word = r0.word)
    ∧ ((∀ a ∈ wdf, a.word = r0.word) → skipAction s = s) := by
  obtain ⟨m, f, w⟩ := s
  have hw' : w = some wdf := hw
  subst hw'
  simp only [skipAction, hh]
  refine ⟨trivial, trivial, trivial, ?_, ?_, ?_, ?_⟩
  · simpa [removeWord, wordEntries] using
      filter_not_append_filter_perm (fun r => r.word = r0.word) wdf
  · intro a ha
    simp only [removeWord, List.mem_filter, decide_eq_true_eq] at ha
    exact ha.2
  · intro a ha
    simp only [wordEntries, List.mem_filter, decide_eq_true_eq] at ha
    exact ha.2
  · intro hall
    have h1 : removeWord wdf r0.word = [] :=
      List.filter_eq_nil_iff.mpr (fun a ha => by simp [hall a ha])
    have h2 : wordEntries wdf r0.word = wdf :=
      List.filter_eq_self.mpr (fun a ha => by simp [hall a ha])
    simp [h1, h2]

/-- The session used by the C6 witness: a pending queue interleaving the
words "b" and "c", currently presenting "b". -/
def c6s : Session :=
  ⟨some [], none,
   some [⟨1, 1, "e1", "g1", "b", none⟩, ⟨2, 1, "e2", "g2", "c", none⟩,
         ⟨3, 1, "e3", "g3", "b", none⟩]⟩

/-- The pending queue of the C6 witness session. -/
def c6wdf : List Record :=
  [⟨1, 1, "e1", "g1", "b", none⟩, ⟨2, 1, "e2", "g2", "c", none⟩,
   ⟨3, 1, "e3", "g3", "b", none⟩]

/-- The first pending row of the C6 witness session. -/
def c6r0 : Record := ⟨1, 1, "e1", "g1", "b", none⟩

/-- Witness for C6: skipping the "b" group moves both "b" rows behind the
"c" row. -/
theorem skip_moves_group_to_end_witness :
    (skipAction c6s).working_df
      = some (removeWord c6wdf c6r0.word ++ wordEntries c6wdf c6r0.word) :=
  (skip_moves_group_to_end c6s c6wdf c6r0 rfl rfl).2.2.1

/-! ### C8: missing required columns -/

/-- C8: when required columns are missing, the run only emits the error
message naming them and leaves the session state untouched; the reported
list is exactly the set of required columns absent from the upload. -/
theorem missing_columns_halt (s : Session) (cols : List String)
    (fileName : String) (rows : List Record)
    (h : ¬ missing_columns cols = []) :
    uploadStep s cols fileName rows
        = (s, some (errorMessage (missing_columns cols)))
    ∧ ∀ c, c ∈ missing_columns cols ↔ (c ∈ required_columns ∧ ¬ c ∈ cols) := by
  constructor
  · simp [uploadStep, h]
  · intro c
    simp [missing_columns, List.mem_filter]

/-- Witness for C8: an upload lacking sub_index, gloss and word is
rejected without touching the fresh session. -/
theorem missing_columns_halt_witness :
    uploadStep Session.init ["index", "entry"] "f.xlsx" []
      = (Session.init, some (errorMessage (missing_columns ["index", "entry"]))) :=
  (missing_columns_halt Session.init ["index", "entry"] "f.xlsx" [] (by decide)).1

end AAED
